import Mathlib

/-!
Verification development for the computation-cache and context-graph core of
the drake systems framework (files `context_base.h`, `diagram_context.h`, and
the cache behavior exercised by `test/cache_test.cc`).

The diagram-context operations (`AddSystem`, `ExportInput`, `ExportOutput`,
`Connect`, `set_time`, `PropagateInvalidOutputs`, `DoClone`) are embedded from
`diagram_context.h` / `context_base.h`.  The `Cache` class and the internals
of the leaf `Context` class are code of this repository that is not present
under `src/` (only declarations, callers and the cache unit tests are), so
those parts are modelled from the specification, as marked on each such
definition.

C++ `DRAKE_DEMAND` / `DRAKE_ASSERT` abort the process on violation; the
embedding renders a demanded operation as `Option`-valued, with `none` for
the aborted case.
-/

namespace DrakeSpec

/-! ## Cache model -/

/-- Modelled from the spec: one cache entry (`cache.h`/`cache.cc` are not under
`src/`).  A slot holds an optional type-erased payload (here an `Int`, since
the cache never inspects the payload) together with a validity bit.  The
stored payload is the retained storage: invalidation flips `valid` but leaves
`stored` untouched, which is how the spec allows a previously returned borrow
to stay dereferenceable (spec section 4.1, option (b): never reclaim during
invalidate). -/
structure CacheEntry where
  stored : Option Int
  valid : Bool
deriving DecidableEq

/-- Modelled from the spec: the dependency-tracked cache (`cache.h`/`cache.cc`
are not under `src/`).  Tickets are dense small naturals `0, 1, ...,
numTickets - 1`.  `prereqs t` is the prerequisite list declared when ticket
`t` was made; `dependents t` is the reverse-edge list used by recursive
invalidation; `entry t` is the slot for ticket `t`. -/
structure Cache where
  numTickets : Nat
  prereqs : Nat → List Nat
  dependents : Nat → List Nat
  entry : Nat → CacheEntry

/-- The empty cache: no tickets issued. -/
def Cache.empty : Cache :=
  { numTickets := 0
    prereqs := fun _ => []
    dependents := fun _ => []
    entry := fun _ => ⟨none, false⟩ }

/-- Modelled from the spec: `make_ticket(prereqs)` allocates the next dense
ticket, records its prerequisites, and adds a reverse edge from each
prerequisite to the new ticket.  Fails (`UnknownTicket`) if any prerequisite
is not an existing ticket.  Only already-existing tickets may be listed, so
the ticket graph is structurally acyclic. -/
def Cache.makeTicket (c : Cache) (ps : List Nat) : Option (Cache × Nat) :=
  if ps.all (fun p => p < c.numTickets) then
    some ({ numTickets := c.numTickets + 1
            prereqs := fun i => if i = c.numTickets then ps else c.prereqs i
            dependents := fun p =>
              if p ∈ ps then c.dependents p ++ [c.numTickets] else c.dependents p
            entry := fun i => if i = c.numTickets then ⟨none, false⟩ else c.entry i },
          c.numTickets)
  else none

/-- Modelled from the spec: `set(ticket, value)` stores `value` at `ticket`
and returns a borrow of the stored value.  It replaces any previous value and
does not invalidate dependents.  Fails on an unknown ticket. -/
def Cache.set (c : Cache) (t : Nat) (v : Int) : Option (Cache × Int) :=
  if t < c.numTickets then
    some ({ c with entry := fun i => if i = t then ⟨some v, true⟩ else c.entry i }, v)
  else none

/-- Modelled from the spec: `swap(ticket, value)` exchanges the payload,
returning the prior payload if the entry was valid, else an absent marker.
Does not invalidate dependents.  Fails on an unknown ticket. -/
def Cache.swap (c : Cache) (t : Nat) (v : Int) : Option (Cache × Option Int) :=
  if t < c.numTickets then
    some ({ c with entry := fun i => if i = t then ⟨some v, true⟩ else c.entry i },
          if (c.entry t).valid then (c.entry t).stored else none)
  else none

/-- Modelled from the spec: `get(ticket)` returns a borrow of the stored value
when the entry is valid, else absent.  Never computes. -/
def Cache.get (c : Cache) (t : Nat) : Option Int :=
  if t < c.numTickets then
    if (c.entry t).valid then (c.entry t).stored else none
  else none

/-- Marks a single entry invalid, retaining its stored payload. -/
def Cache.markInvalid (c : Cache) (t : Nat) : Cache :=
  { c with entry := fun i => if i = t then ⟨(c.entry t).stored, false⟩ else c.entry i }

/-- Total number of forward (dependent) edges in the ticket graph; used to
bound the invalidation worklist. -/
def Cache.totalEdges (c : Cache) : Nat :=
  (List.range c.numTickets).foldl (fun a i => a + (c.dependents i).length) 0

/-- Modelled from the spec: the recursive-invalidation worklist sweep.  Each
step pops a ticket; a not-yet-visited ticket is marked invalid and its
forward dependents are enqueued.  The sweep deliberately does not consult
validity, so it continues through already-invalid entries (spec section 4.1).
`fuel` is a step bound; the caller supplies enough fuel that the worklist is
exhausted before the fuel is (each ticket's dependents are enqueued at most
once, so `totalEdges + 2` steps always suffice). -/
def Cache.invalidateWork : Nat → Cache → List Nat → List Nat → Cache
  | 0, c, _, _ => c
  | _ + 1, c, _, [] => c
  | fuel + 1, c, visited, t :: rest =>
    if t ∈ visited then Cache.invalidateWork fuel c visited rest
    else Cache.invalidateWork fuel (c.markInvalid t) (t :: visited) (rest ++ c.dependents t)

/-- Modelled from the spec: `invalidate(ticket)` marks the ticket invalid and
recursively marks every transitive dependent invalid, following forward
edges. -/
def Cache.invalidate (c : Cache) (t : Nat) : Cache :=
  Cache.invalidateWork (c.totalEdges + 2) c [] [t]

/-- Modelled from the spec: `clone()` is a deep copy with the same tickets,
the same dependency topology and equal values; the copy shares no mutable
state with the original (in this pure embedding every field is copied). -/
def Cache.clone (c : Cache) : Cache :=
  { numTickets := c.numTickets
    prereqs := c.prereqs
    dependents := c.dependents
    entry := c.entry }

/-! ## Concrete cache scenarios (the `CacheTest` fixture of
`test/cache_test.cc`) -/

/-- The `CacheTest::SetUp` fixture: `ticket0 = MakeCacheTicket({})`,
`ticket1 = MakeCacheTicket({ticket0})`, `ticket2 = MakeCacheTicket({ticket0,
ticket1})`, then `Set` of 0, 1, 2 respectively.  The dense ticket ids are
0, 1, 2. -/
def cacheTestSetup : Option Cache := do
  let (c, t0) ← Cache.empty.makeTicket []
  let (c, t1) ← c.makeTicket [t0]
  let (c, _t2) ← c.makeTicket [t0, t1]
  let (c, _) ← c.set t0 0
  let (c, _) ← c.set t1 1
  let (c, _) ← c.set 2 2
  pure c

/-- The fixture cache itself (the build above always succeeds). -/
def fixtureCache : Cache := cacheTestSetup.getD Cache.empty

/-- The fixture cache after `Invalidate(ticket1)`. -/
def fixtureInvalidated : Cache := fixtureCache.invalidate 1

/-- The fixture cache after `Invalidate(ticket1); Set(ticket2, v)`
(the first two steps of the `InvalidationDoesNotStopOnNullptr` test, with
the repopulation value generalized). -/
def fixtureResetWith (v : Int) : Cache :=
  ((fixtureInvalidated.set 2 v).map Prod.fst).getD fixtureInvalidated

/-! ## Intermediate caches for the set/get/swap scenario (S1 of the spec,
`SetReturnsValue` / `GetReturnsValue` / `SwapReturnsAndSetsValue` tests) -/

/-- The cache after `t = make_ticket({})` on an arbitrary cache `c`; the
fresh dense ticket is `c.numTickets`. -/
def afterFreshTicket (c : Cache) : Cache := ((c.makeTicket []).map Prod.fst).getD c

/-- The cache after additionally doing `set(t, 42)`. -/
def afterSet42 (c : Cache) : Cache :=
  (((afterFreshTicket c).set c.numTickets 42).map Prod.fst).getD (afterFreshTicket c)

/-- The cache after additionally doing `swap(t, 43)`. -/
def afterSwap43 (c : Cache) : Cache :=
  (((afterSet42 c).swap c.numTickets 43).map Prod.fst).getD (afterSet42 c)

/-! ## Cache operation sequences and clone independence -/

/-- A single cache operation, used to quantify over arbitrary operation
sequences for the clone-independence claim. -/
inductive CacheOp where
  | mk (ps : List Nat)
  | set (t : Nat) (v : Int)
  | swap (t : Nat) (v : Int)
  | invalidate (t : Nat)

/-- Applies one operation to a cache; a failing operation (unknown ticket)
leaves the cache unchanged, matching the abort-on-violation model where no
partially updated state is observable. -/
def Cache.applyOp (c : Cache) : CacheOp → Cache
  | .mk ps => ((c.makeTicket ps).map Prod.fst).getD c
  | .set t v => ((c.set t v).map Prod.fst).getD c
  | .swap t v => ((c.swap t v).map Prod.fst).getD c
  | .invalidate t => c.invalidate t

/-- The pair of caches that exist after `clone()`: the original and the
copy.  Since `clone` is a deep copy, the two sides share no state; an
operation addressed to one side can only rewrite that side. -/
structure ClonePair where
  original : Cache
  copy : Cache

/-- The state immediately after `clone()`. -/
def ClonePair.ofClone (c : Cache) : ClonePair := ⟨c, c.clone⟩

/-- One operation addressed to the copy. -/
def ClonePair.opOnCopy (p : ClonePair) (op : CacheOp) : ClonePair :=
  ⟨p.original, p.copy.applyOp op⟩

/-- A whole operation sequence addressed to the copy. -/
def ClonePair.opsOnCopy (p : ClonePair) (ops : List CacheOp) : ClonePair :=
  ops.foldl ClonePair.opOnCopy p

/-- One operation addressed to the original. -/
def ClonePair.opOnOriginal (p : ClonePair) (op : CacheOp) : ClonePair :=
  ⟨p.original.applyOp op, p.copy⟩

/-- A whole operation sequence addressed to the original. -/
def ClonePair.opsOnOriginal (p : ClonePair) (ops : List CacheOp) : ClonePair :=
  ops.foldl ClonePair.opOnOriginal p

/-! ## The context tree and time propagation

`ContextBase<T>::set_time` (context_base.h) writes the new time into the
node's own step-info record; `DiagramContext<T>::set_time` (diagram_context.h)
first calls the base version on itself and then calls the virtual `set_time`
on every non-null child context, recursing through nested diagrams.  Only the
time component of the contexts is relevant to this claim; `InvalidateTime`
touches the cache, never the stored time. -/

/-- A context tree: a leaf context or a diagram context over child slots
(`contexts_` entries may be null during construction, hence `Option`). -/
inductive CtxTree where
  | leaf : Int → CtxTree
  | diagram : Int → List (Option CtxTree) → CtxTree

/-- `get_time()`: the time stored in the node's own step-info record. -/
def CtxTree.time : CtxTree → Int
  | .leaf s => s
  | .diagram s _ => s

mutual

/-- `set_time(t)`: a leaf stores `t` (`ContextBase::set_time`); a diagram
stores `t` and recursively sets `t` on every installed child
(`DiagramContext::set_time`). -/
def CtxTree.setTime (t : Int) : CtxTree → CtxTree
  | .leaf _ => .leaf t
  | .diagram _ cs => .diagram t (setTimeChildren t cs)

/-- The child loop of `DiagramContext::set_time`: null slots are skipped. -/
def setTimeChildren (t : Int) : List (Option CtxTree) → List (Option CtxTree)
  | [] => []
  | none :: rest => none :: setTimeChildren t rest
  | some c :: rest => some (CtxTree.setTime t c) :: setTimeChildren t rest

end

mutual

/-- Every context in the tree reports `time() == t`. -/
def CtxTree.allTime (t : Int) : CtxTree → Bool
  | .leaf s => s == t
  | .diagram s cs => s == t && allTimeChildren t cs

/-- `allTime` over a child-slot list (empty slots are vacuously fine). -/
def allTimeChildren (t : Int) : List (Option CtxTree) → Bool
  | [] => true
  | none :: rest => allTimeChildren t rest
  | some c :: rest => CtxTree.allTime t c && allTimeChildren t rest

end

mutual

/-- Every diagram node in the tree has all of its child slots installed. -/
def CtxTree.allInstalled : CtxTree → Bool
  | .leaf _ => true
  | .diagram _ cs => allInstalledChildren cs

/-- `allInstalled` over a child-slot list: no slot may be empty. -/
def allInstalledChildren : List (Option CtxTree) → Bool
  | [] => true
  | none :: _ => false
  | some c :: rest => CtxTree.allInstalled c && allInstalledChildren rest

end

/-- The three-child diagram of scenario S6. -/
def threeChildDiagram : CtxTree :=
  .diagram 0 [some (.leaf 1), some (.leaf 2), some (.leaf 3)]

/-! ## Diagram context model (diagram_context.h) -/

/-- `DiagramContext::PortIdentifier`: a `(SystemIndex, PortIndex)` pair. -/
abbrev PortIdentifier := Nat × Nat

/-- An input port of a subsystem context: `FreestandingInputPort` owns a
value; `DependentInputPort` refers to an output slot of a sibling subsystem,
held as a `(container index, slot index)` pair per the spec's pointer-graph
guidance (spec section 9). -/
inductive InputPort where
  | freestanding (value : Int)
  | dependent (srcSystem : Nat) (srcPort : Nat)
deriving DecidableEq

/-- Modelled from the spec: the leaf `Context` class (`context.h` is not
under `src/`).  Only the pieces the diagram claims observe are carried: the
time, the `(parent, index)` back-reference installed by
`set_parent_and_index`, and the input-port vector addressed by
`SetInputPort` / `get_num_input_ports`.  The back-reference stores the index
within the owning diagram; the parent identity is the containing diagram by
construction. -/
structure LeafContext where
  time : Int
  parentIndex : Option Nat
  inputPorts : List InputPort
deriving DecidableEq

/-- Modelled from the spec: `SystemOutput` (`system_output.h` is not under
`src/`): an ordered sequence of output slots.  Only the slot values and the
port count (`get_num_ports`) are observed by these claims. -/
structure SystemOutput where
  ports : List Int
deriving DecidableEq

/-- Modelled from the spec: `SystemOutput::Clone` deep-copies the slot
values. -/
def SystemOutput.clone (o : SystemOutput) : SystemOutput := { ports := o.ports }

/-- `Context::get_num_input_ports`. -/
def LeafContext.numInputPorts (c : LeafContext) : Nat := c.inputPorts.length

/-- The strict order on `PortIdentifier` used by `std::map` (lexicographic
on the pair). -/
def portIdLt (a b : PortIdentifier) : Bool :=
  a.1 < b.1 || (a.1 = b.1 && a.2 < b.2)

/-- `std::map` insertion (`m[k] = v`): keeps the association list sorted by
key and replaces the binding when the key is already present. -/
def mapInsert {α : Type} (k : PortIdentifier) (v : α) :
    List (PortIdentifier × α) → List (PortIdentifier × α)
  | [] => [(k, v)]
  | (k', v') :: rest =>
    if portIdLt k k' then (k, v) :: (k', v') :: rest
    else if k = k' then (k, v) :: rest
    else (k', v') :: mapInsert k v rest

/-- `std::map` lookup. -/
def mapLookup {α : Type} (k : PortIdentifier) : List (PortIdentifier × α) → Option α
  | [] => none
  | (k', v') :: rest => if k = k' then some v' else mapLookup k rest

/-- `inverse_dependency_graph_[src].push_back(dest)`: `operator[]` inserts an
empty vector when the key is absent, then the destination is appended. -/
def invPush (k v : PortIdentifier)
    (m : List (PortIdentifier × List PortIdentifier)) :
    List (PortIdentifier × List PortIdentifier) :=
  mapInsert k ((mapLookup k m).getD [] ++ [v]) m

/-- The `DiagramContext<T>` state: exported input and output identifier
lists (`input_ids_`, `output_ids_`), the child output sets and child
contexts in `SystemIndex` order (`outputs_`, `contexts_`, null until
`AddSystem`), and the forward and inverse wiring maps
(`dependency_graph_`, `inverse_dependency_graph_`).  The aggregate `State`
built by `MakeState` is not observed by any claim and is not modelled. -/
structure DiagramContext where
  inputIds : List PortIdentifier
  outputIds : List PortIdentifier
  outputs : List (Option SystemOutput)
  contexts : List (Option LeafContext)
  dependencyGraph : List (PortIdentifier × PortIdentifier)
  inverseDependencyGraph : List (PortIdentifier × List PortIdentifier)
deriving DecidableEq

/-- The `DiagramContext(num_subsystems)` constructor: both parallel vectors
are allocated at the final size with null entries.  (`BuildCacheTickets`
touches only the cache, which this model does not carry.) -/
def DiagramContext.create (numSubsystems : Nat) : DiagramContext :=
  { inputIds := []
    outputIds := []
    outputs := List.replicate numSubsystems none
    contexts := List.replicate numSubsystems none
    dependencyGraph := []
    inverseDependencyGraph := [] }

/-- `num_subsystems()` (a C++ `int`). -/
def DiagramContext.numSubsystems (d : DiagramContext) : Int := d.contexts.length

/-- The installed child context at `i`, if any (flattens the out-of-range
and null cases). -/
def DiagramContext.childAt (d : DiagramContext) (i : Nat) : Option LeafContext :=
  (d.contexts[i]?).bind id

/-- The installed child output set at `i`, if any. -/
def DiagramContext.outputAt (d : DiagramContext) (i : Nat) : Option SystemOutput :=
  (d.outputs[i]?).bind id

/-- Input port `p` of the child installed at `i`, if any. -/
def DiagramContext.portAt (d : DiagramContext) (i p : Nat) : Option InputPort :=
  (d.childAt i).bind fun cc => cc.inputPorts[p]?

/-- `get_num_input_ports()`: the exported-input list size. -/
def DiagramContext.numInputPorts (d : DiagramContext) : Nat := d.inputIds.length

/-- `get_num_output_ports()`: the exported-output list size. -/
def DiagramContext.numOutputPorts (d : DiagramContext) : Nat := d.outputIds.length

/-- `AddSystem(index, context, output)`: demands `index` in range and both
slots still null, records the `(this, index)` back-pointer in the child via
`set_parent_and_index`, and takes ownership of the context and the output. -/
def DiagramContext.AddSystem (d : DiagramContext) (index : Int)
    (ctx : LeafContext) (out : SystemOutput) : Option DiagramContext :=
  if 0 ≤ index ∧ index < d.numSubsystems ∧
     d.contexts[index.toNat]? = some none ∧ d.outputs[index.toNat]? = some none then
    some { d with
      contexts := d.contexts.set index.toNat (some { ctx with parentIndex := some index.toNat })
      outputs := d.outputs.set index.toNat (some out) }
  else none

/-- `ExportInput(id)`: demands only `contexts_[id.first] != nullptr`, then
appends `id` to `input_ids_`.  The port index `id.second` is not examined. -/
def DiagramContext.ExportInput (d : DiagramContext) (portId : PortIdentifier) :
    Option DiagramContext :=
  match d.childAt portId.1 with
  | some _ => some { d with inputIds := d.inputIds ++ [portId] }
  | none => none

/-- `ExportOutput(id)`: demands only `contexts_[id.first] != nullptr`, then
appends `id` to `output_ids_`.  The port index `id.second` is not examined. -/
def DiagramContext.ExportOutput (d : DiagramContext) (portId : PortIdentifier) :
    Option DiagramContext :=
  match d.childAt portId.1 with
  | some _ => some { d with outputIds := d.outputIds ++ [portId] }
  | none => none

/-- `Context::SetInputPort` on the child installed at `i` (replaces input
port `p`); a missing child leaves the vector untouched (`Connect` has
already demanded its presence). -/
def setChildPort (cs : List (Option LeafContext)) (i p : Nat) (port : InputPort) :
    List (Option LeafContext) :=
  match cs[i]? with
  | some (some cc) => cs.set i (some { cc with inputPorts := cc.inputPorts.set p port })
  | _ => cs

/-- `Connect(src, dest)`: validates the source output (subsystem present,
`0 <= port < get_num_ports`), validates the destination (subsystem present,
`0 <= port < get_num_input_ports`), installs a `DependentInputPort`
referring to the source slot at the destination, and records
`dependency_graph_[dest] = src` plus
`inverse_dependency_graph_[src].push_back(dest)`. -/
def DiagramContext.Connect (d : DiagramContext) (src dest : PortIdentifier) :
    Option DiagramContext :=
  match d.outputAt src.1 with
  | none => none
  | some srcPorts =>
    if src.2 < srcPorts.ports.length then
      match d.childAt dest.1 with
      | none => none
      | some destCtx =>
        if dest.2 < destCtx.numInputPorts then
          some { d with
            contexts := setChildPort d.contexts dest.1 dest.2 (.dependent src.1 src.2)
            dependencyGraph := mapInsert dest src d.dependencyGraph
            inverseDependencyGraph := invPush src dest d.inverseDependencyGraph }
        else none
    else none

/-- `PropagateInvalidOutputs(system_index, port_index)`: the body in
`diagram_context.h` consists solely of the comment
`TODO(david-german-tri): What goes here??`, so the call returns without
touching anything. -/
def DiagramContext.PropagateInvalidOutputs (d : DiagramContext)
    (_systemIndex _portIndex : Nat) : DiagramContext := d

/-- The value currently sitting in output slot `p` of subsystem `s`,
defaulting to 0 where the slot does not exist (used only to snapshot
dependent ports during a clone). -/
def resolveOutputValue (d : DiagramContext) (s p : Nat) : Int :=
  ((d.outputAt s).bind (fun o => o.ports[p]?)).getD 0

/-- Modelled from the spec: `Context::Clone` on a leaf child (`context.h` is
not under `src/`).  A dependent input port is converted to a freestanding
port holding a snapshot of its current referent's value (spec sections 4.4
and 4.7); freestanding ports are deep-copied; time is preserved. -/
def cloneChild (d : DiagramContext) (cc : LeafContext) : LeafContext :=
  { time := cc.time
    parentIndex := cc.parentIndex
    inputPorts := cc.inputPorts.map fun pt =>
      match pt with
      | .freestanding v => .freestanding v
      | .dependent s p => .freestanding (resolveOutputValue d s p) }

/-- One iteration of the `DoClone` child loop: demand both slots non-null,
then `clone->AddSystem(i, contexts_[i]->Clone(), outputs_[i]->Clone())`. -/
def cloneAddStep (d c : DiagramContext) (i : Nat) : Option DiagramContext := do
  let ctx ← d.childAt i
  let out ← d.outputAt i
  c.AddSystem (Int.ofNat i) (cloneChild d ctx) out.clone

/-- One iteration of the `DoClone` wiring loop: for a map entry
`(dest, src)`, `clone->Connect(src, dest)`. -/
def connectReplayStep (c : DiagramContext) (pr : PortIdentifier × PortIdentifier) :
    Option DiagramContext :=
  c.Connect pr.2 pr.1

/-- One iteration of the `DoClone` exported-input loop:
`clone->ExportInput(id)`. -/
def exportReplayStep (c : DiagramContext) (pid : PortIdentifier) : Option DiagramContext :=
  c.ExportInput pid

/-- `DoClone()`: allocate an empty clone of the same size, clone every child
context and output set in index order via `AddSystem`, replay every
connection from `dependency_graph_` via `Connect`, and replay every exported
input via `ExportInput`.  The source replays `input_ids_` but never
`output_ids_`.  (`MakeState` rebuilds the aggregate state view, which is not
modelled; no claim observes it.) -/
def DiagramContext.DoClone (d : DiagramContext) : Option DiagramContext := do
  let afterAdd ← (List.range d.contexts.length).foldlM (cloneAddStep d)
    (DiagramContext.create d.contexts.length)
  let afterConnect ← d.dependencyGraph.foldlM connectReplayStep afterAdd
  d.inputIds.foldlM exportReplayStep afterConnect

/-- The observable signature of a child context that the replay steps
preserve: its time, its parent back-reference and its declared input-port
count. -/
def childSig (cc : LeafContext) : Int × Option Nat × Nat :=
  (cc.time, cc.parentIndex, cc.inputPorts.length)

/-- The consumer list recorded for a source endpoint in the inverse
dependency graph. -/
def consumersOf (d : DiagramContext) (src : PortIdentifier) : List PortIdentifier :=
  (mapLookup src d.inverseDependencyGraph).getD []

/-! ## Concrete diagram fixtures -/

/-- A child context with no input ports. -/
def leafNoInputs : LeafContext := { time := 0, parentIndex := none, inputPorts := [] }

/-- A child context with one (freestanding) input port. -/
def leafOneInput : LeafContext :=
  { time := 0, parentIndex := none, inputPorts := [.freestanding 0] }

/-- An output set with two slots. -/
def twoPortOutput : SystemOutput := { ports := [10, 20] }

/-- An output set with no slots. -/
def emptyOutput : SystemOutput := { ports := [] }

/-- A two-subsystem diagram: child 0 has two output ports and no inputs,
child 1 has one input port and no outputs. -/
def twoChildDiagram : Option DiagramContext := do
  let d := DiagramContext.create 2
  let d ← d.AddSystem 0 leafNoInputs twoPortOutput
  let d ← d.AddSystem 1 leafOneInput emptyOutput
  pure d

/-- A one-subsystem diagram exporting one output port. -/
def exportingDiagram : Option DiagramContext := do
  let d := DiagramContext.create 1
  let d ← d.AddSystem 0 leafNoInputs twoPortOutput
  let d ← d.ExportOutput (0, 0)
  pure d

/-- The exporting diagram, unwrapped. -/
def c4orig : DiagramContext := exportingDiagram.getD (DiagramContext.create 0)

/-- Its `DoClone` result, unwrapped. -/
def c4origClone : DiagramContext := c4orig.DoClone.getD (DiagramContext.create 0)

/-- A fully wired two-subsystem diagram with an internal connection, an
exported input and an exported output. -/
def richDiagram : Option DiagramContext := do
  let d := DiagramContext.create 2
  let d ← d.AddSystem 0 leafNoInputs twoPortOutput
  let d ← d.AddSystem 1 leafOneInput emptyOutput
  let d ← d.Connect (0, 0) (1, 0)
  let d ← d.ExportInput (1, 0)
  let d ← d.ExportOutput (0, 1)
  pure d

/-- The wired diagram, unwrapped. -/
def c4base : DiagramContext := richDiagram.getD (DiagramContext.create 0)

/-- Its `DoClone` result, unwrapped. -/
def c4baseClone : DiagramContext := c4base.DoClone.getD (DiagramContext.create 0)

/-- The two-child diagram, unwrapped. -/
def baseDiagram : DiagramContext := twoChildDiagram.getD (DiagramContext.create 0)

/-- The two-child diagram after `Connect((0,0), (1,0))`. -/
def firstWired : DiagramContext := (baseDiagram.Connect (0, 0) (1, 0)).getD baseDiagram

/-- The same diagram after reconnecting the destination to `(0,1)`. -/
def rewired : DiagramContext := (firstWired.Connect (0, 1) (1, 0)).getD firstWired

/-- A fresh two-slot diagram after one successful `AddSystem` at index 0. -/
def addedOnce : DiagramContext :=
  ((DiagramContext.create 2).AddSystem 0 leafNoInputs twoPortOutput).getD
    (DiagramContext.create 0)

end DrakeSpec

namespace DrakeSpec

/-! ## Cache lemmas -/

/-- Marking one entry invalid never changes any stored payload. -/
theorem markInvalid_stored (c : Cache) (t u : Nat) :
    ((c.markInvalid t).entry u).stored = (c.entry u).stored := by
  by_cases h : u = t <;> simp [Cache.markInvalid, h]

/-- Marking entries invalid never revalidates an invalid entry. -/
theorem markInvalid_valid_false (c : Cache) (t u : Nat)
    (h : (c.entry u).valid = false) :
    ((c.markInvalid t).entry u).valid = false := by
  by_cases hut : u = t <;> simp [Cache.markInvalid, hut, h]

/-- The invalidation sweep never changes any stored payload, regardless of
fuel, visited set or worklist. -/
theorem invalidateWork_stored (fuel : Nat) :
    ∀ (c : Cache) (visited ws : List Nat) (u : Nat),
      ((Cache.invalidateWork fuel c visited ws).entry u).stored = (c.entry u).stored := by
  induction fuel with
  | zero => intro c visited ws u; rfl
  | succ n ih =>
    intro c visited ws u
    cases ws with
    | nil => rfl
    | cons t rest =>
      simp only [Cache.invalidateWork]
      by_cases h : t ∈ visited
      · simp [h, ih]
      · simp [h, ih, markInvalid_stored]

/-- The invalidation sweep never revalidates an entry that is already
invalid. -/
theorem invalidateWork_valid_false (fuel : Nat) :
    ∀ (c : Cache) (visited ws : List Nat) (u : Nat),
      (c.entry u).valid = false →
      ((Cache.invalidateWork fuel c visited ws).entry u).valid = false := by
  induction fuel with
  | zero => intro c visited ws u h; exact h
  | succ n ih =>
    intro c visited ws u h
    cases ws with
    | nil => exact h
    | cons t rest =>
      simp only [Cache.invalidateWork]
      by_cases hm : t ∈ visited
      · simp only [hm, if_true]; exact ih c visited rest u h
      · simp only [hm, if_false]
        exact ih (c.markInvalid t) (t :: visited) (rest ++ c.dependents t) u
          (markInvalid_valid_false c t u h)

/-- `invalidate(t)` leaves the entry for `t` invalid. -/
theorem invalidate_valid_self (c : Cache) (t : Nat) :
    ((c.invalidate t).entry t).valid = false := by
  show ((Cache.invalidateWork (c.totalEdges + 2) c [] [t]).entry t).valid = false
  have hstep : Cache.invalidateWork (c.totalEdges + 2) c [] [t] =
      Cache.invalidateWork (c.totalEdges + 1) (c.markInvalid t) [t] ([] ++ c.dependents t) := by
    show Cache.invalidateWork (c.totalEdges + 1 + 1) c [] [t] = _
    simp [Cache.invalidateWork]
  rw [hstep]
  refine invalidateWork_valid_false _ _ _ _ _ ?_
  simp [Cache.markInvalid]

/-- After `invalidate(t)`, `get(t)` is absent. -/
theorem invalidate_get_self (c : Cache) (t : Nat) :
    (c.invalidate t).get t = none := by
  have h := invalidate_valid_self c t
  simp [Cache.get, h]

/-- Inversion of a successful `get`: the ticket is known, the entry valid,
and the payload stored. -/
theorem get_some_elim (c : Cache) (t : Nat) (p : Int) (h : c.get t = some p) :
    t < c.numTickets ∧ (c.entry t).valid = true ∧ (c.entry t).stored = some p := by
  unfold Cache.get at h
  split at h
  · split at h
    · exact ⟨by assumption, by assumption, h⟩
    · exact absurd h (by simp)
  · exact absurd h (by simp)

/-- Operations addressed to the copy of a clone pair never rewrite the
original side. -/
theorem opsOnCopy_original (ops : List CacheOp) :
    ∀ p : ClonePair, (p.opsOnCopy ops).original = p.original := by
  induction ops with
  | nil => intro p; rfl
  | cons op rest ih => intro p; exact ih (p.opOnCopy op)

/-- Operations addressed to the original of a clone pair never rewrite the
copy side. -/
theorem opsOnOriginal_copy (ops : List CacheOp) :
    ∀ p : ClonePair, (p.opsOnOriginal ops).copy = p.copy := by
  induction ops with
  | nil => intro p; rfl
  | cons op rest ih => intro p; exact ih (p.opOnOriginal op)

/-! ## Context-tree lemmas -/

mutual

/-- After `set_time(t)`, every context in the tree reports `time() == t`. -/
theorem setTime_allTime (t : Int) :
    ∀ tr : CtxTree, CtxTree.allTime t (CtxTree.setTime t tr) = true
  | .leaf _ => by simp [CtxTree.setTime, CtxTree.allTime]
  | .diagram _ cs => by
    simp [CtxTree.setTime, CtxTree.allTime, setTime_allTimeChildren t cs]

/-- The child-list version of `setTime_allTime`. -/
theorem setTime_allTimeChildren (t : Int) :
    ∀ cs : List (Option CtxTree), allTimeChildren t (setTimeChildren t cs) = true
  | [] => rfl
  | none :: rest => by
    simp [setTimeChildren, allTimeChildren, setTime_allTimeChildren t rest]
  | some c :: rest => by
    simp [setTimeChildren, allTimeChildren, setTime_allTime t c, setTime_allTimeChildren t rest]

end

end DrakeSpec

namespace DrakeSpec

/-! ## Diagram-context lemmas -/

/-- The inserted key is found with the new value. -/
theorem mapLookup_mapInsert_self {α : Type} (k : PortIdentifier) (v : α)
    (m : List (PortIdentifier × α)) :
    mapLookup k (mapInsert k v m) = some v := by
  induction m with
  | nil => simp [mapInsert, mapLookup]
  | cons kv rest ih =>
    obtain ⟨k', v'⟩ := kv
    unfold mapInsert
    by_cases hlt : portIdLt k k' = true
    · simp [hlt, mapLookup]
    · by_cases heq : k = k'
      · subst heq
        simp [hlt, mapLookup]
      · simp [hlt, heq, mapLookup, ih]

/-- Insertion does not disturb lookups of other keys. -/
theorem mapLookup_mapInsert_ne {α : Type} {k q : PortIdentifier} (h : q ≠ k) (v : α)
    (m : List (PortIdentifier × α)) :
    mapLookup q (mapInsert k v m) = mapLookup q m := by
  induction m with
  | nil => simp [mapInsert, mapLookup, h]
  | cons kv rest ih =>
    obtain ⟨k0, v0⟩ := kv
    unfold mapInsert
    by_cases hlt : portIdLt k k0 = true
    · simp [hlt, mapLookup, h]
    · by_cases heq : k = k0
      · subst heq
        simp [hlt, mapLookup, h]
      · simp [hlt, heq, mapLookup, ih]

/-- A child is installed exactly when the underlying slot holds it. -/
theorem childAt_eq_some {d : DiagramContext} {i : Nat} {cc : LeafContext} :
    d.childAt i = some cc ↔ d.contexts[i]? = some (some cc) := by
  unfold DiagramContext.childAt
  cases h : d.contexts[i]? with
  | none => simp
  | some x => cases x <;> simp

/-- An output set is installed exactly when the underlying slot holds it. -/
theorem outputAt_eq_some {d : DiagramContext} {i : Nat} {o : SystemOutput} :
    d.outputAt i = some o ↔ d.outputs[i]? = some (some o) := by
  unfold DiagramContext.outputAt
  cases h : d.outputs[i]? with
  | none => simp
  | some x => cases x <;> simp

/-- Success characterization of `AddSystem`: all four demands hold and the
result is the diagram with the child (carrying its new back-pointer) and the
output installed at the index. -/
theorem addSystem_eq_some {d d' : DiagramContext} {index : Int} {ctx : LeafContext}
    {out : SystemOutput} :
    d.AddSystem index ctx out = some d' ↔
    0 ≤ index ∧ index < d.numSubsystems ∧
    d.contexts[index.toNat]? = some none ∧ d.outputs[index.toNat]? = some none ∧
    d' = { d with
      contexts := d.contexts.set index.toNat (some { ctx with parentIndex := some index.toNat })
      outputs := d.outputs.set index.toNat (some out) } := by
  constructor
  · intro h
    unfold DiagramContext.AddSystem at h
    split at h
    next hc =>
      injection h with h
      exact ⟨hc.1, hc.2.1, hc.2.2.1, hc.2.2.2, h.symm⟩
    next => exact Option.noConfusion h
  · rintro ⟨h0, h1, h2, h3, h4⟩
    subst h4
    unfold DiagramContext.AddSystem
    rw [if_pos ⟨h0, h1, h2, h3⟩]

/-- Success characterization of `ExportInput`: the child named by the
identifier is installed and the identifier is appended to `input_ids_`. -/
theorem exportInput_eq_some {d d' : DiagramContext} {pid : PortIdentifier} :
    d.ExportInput pid = some d' ↔
    (d.childAt pid.1).isSome = true ∧ d' = { d with inputIds := d.inputIds ++ [pid] } := by
  unfold DiagramContext.ExportInput
  cases h : d.childAt pid.1 <;> simp [h, eq_comm]

/-- Success characterization of `Connect`: both endpoints pass their range
demands; the result installs the dependent port, records the forward edge,
and appends the inverse edge. -/
theorem connect_eq_some {d d' : DiagramContext} {src dest : PortIdentifier} :
    d.Connect src dest = some d' ↔
    ∃ srcPorts destCtx,
      d.outputAt src.1 = some srcPorts ∧ src.2 < srcPorts.ports.length ∧
      d.childAt dest.1 = some destCtx ∧ dest.2 < destCtx.numInputPorts ∧
      d' = { d with
        contexts := setChildPort d.contexts dest.1 dest.2 (.dependent src.1 src.2)
        dependencyGraph := mapInsert dest src d.dependencyGraph
        inverseDependencyGraph := invPush src dest d.inverseDependencyGraph } := by
  unfold DiagramContext.Connect
  constructor
  · intro h
    split at h
    · exact Option.noConfusion h
    next srcPorts heq =>
      by_cases h1 : src.2 < srcPorts.ports.length
      · rw [if_pos h1] at h
        split at h
        · exact Option.noConfusion h
        next destCtx heq2 =>
          by_cases h2 : dest.2 < destCtx.numInputPorts
          · rw [if_pos h2] at h
            injection h with h
            exact ⟨srcPorts, destCtx, heq, h1, heq2, h2, h.symm⟩
          · rw [if_neg h2] at h
            exact Option.noConfusion h
      · rw [if_neg h1] at h
        exact Option.noConfusion h
  · rintro ⟨sp, dc, h1, h2, h3, h4, h5⟩
    subst h5
    simp [h1, h2, h3, h4]

/-- What one successful `Connect` does to every observable this development
tracks: the id lists and outputs are untouched, child signatures are
preserved, the two graphs gain exactly the new edge, the destination port
becomes dependent on the source, and every other port is untouched. -/
theorem connect_fields {d d1 : DiagramContext} {s de : PortIdentifier}
    (h : d.Connect s de = some d1) :
    d1.inputIds = d.inputIds ∧ d1.outputIds = d.outputIds ∧ d1.outputs = d.outputs ∧
    d1.contexts.length = d.contexts.length ∧
    (∀ i, (d1.childAt i).map childSig = (d.childAt i).map childSig) ∧
    d1.dependencyGraph = mapInsert de s d.dependencyGraph ∧
    d1.inverseDependencyGraph = invPush s de d.inverseDependencyGraph ∧
    d1.portAt de.1 de.2 = some (.dependent s.1 s.2) ∧
    (∀ j q, (j, q) ≠ de → d1.portAt j q = d.portAt j q) := by
  obtain ⟨sp, dc, hsp, hlt, hdc, hqlt, hrec⟩ := connect_eq_some.mp h
  have hslot : d.contexts[de.1]? = some (some dc) := childAt_eq_some.mp hdc
  have hde1 : de.1 < d.contexts.length := (List.getElem?_eq_some_iff.mp hslot).1
  have hset : setChildPort d.contexts de.1 de.2 (.dependent s.1 s.2) =
      d.contexts.set de.1
        (some { dc with inputPorts := dc.inputPorts.set de.2 (.dependent s.1 s.2) }) := by
    unfold setChildPort
    rw [hslot]
  subst hrec
  refine ⟨rfl, rfl, rfl, by simp [hset], ?_, rfl, rfl, ?_, ?_⟩
  · intro i
    show Option.map childSig
        (((setChildPort d.contexts de.1 de.2 (.dependent s.1 s.2))[i]?).bind id) =
      Option.map childSig ((d.contexts[i]?).bind id)
    rw [hset]
    by_cases hi : i = de.1
    · subst hi
      rw [List.getElem?_set_self hde1, hslot]
      simp [childSig]
    · rw [List.getElem?_set_ne (fun hh => hi hh.symm)]
  · show ((((setChildPort d.contexts de.1 de.2 (.dependent s.1 s.2))[de.1]?).bind id).bind
        fun cc => cc.inputPorts[de.2]?) = some (.dependent s.1 s.2)
    rw [hset, List.getElem?_set_self hde1]
    have hq : de.2 < dc.inputPorts.length := hqlt
    simp [List.getElem?_set_self hq]
  · intro j q hjq
    show ((((setChildPort d.contexts de.1 de.2 (.dependent s.1 s.2))[j]?).bind id).bind
        fun cc => cc.inputPorts[q]?) =
      (((d.contexts[j]?).bind id).bind fun cc => cc.inputPorts[q]?)
    rw [hset]
    by_cases hj : j = de.1
    · subst hj
      have hq : q ≠ de.2 := by
        intro hh
        exact hjq (by rw [hh])
      rw [List.getElem?_set_self hde1, hslot]
      simp [List.getElem?_set_ne (fun hh => hq hh.symm)]
    · rw [List.getElem?_set_ne (fun hh => hj hh.symm)]

/-- Success characterization of one `DoClone` child-loop iteration. -/
theorem cloneAddStep_eq_some {d c c1 : DiagramContext} {k : Nat} :
    cloneAddStep d c k = some c1 ↔
    ∃ ctx out, d.childAt k = some ctx ∧ d.outputAt k = some out ∧
      c.AddSystem (Int.ofNat k) (cloneChild d ctx) out.clone = some c1 := by
  unfold cloneAddStep
  cases hctx : d.childAt k <;> cases hout : d.outputAt k <;>
    simp [hctx, hout, Option.bind]

end DrakeSpec

namespace DrakeSpec

/-- Invariants of the `DoClone` child loop over any duplicate-free index
list: the id lists and graphs are untouched, vector lengths are preserved,
unprocessed slots are untouched, and each processed index ends up holding
the clone of the corresponding original child (with its back-pointer) and
the clone of its output set. -/
theorem addFold_spec (d : DiagramContext) :
    ∀ (ks : List Nat) (c c' : DiagramContext), ks.Nodup →
      ks.foldlM (cloneAddStep d) c = some c' →
      c'.inputIds = c.inputIds ∧ c'.outputIds = c.outputIds ∧
      c'.dependencyGraph = c.dependencyGraph ∧
      c'.inverseDependencyGraph = c.inverseDependencyGraph ∧
      c'.contexts.length = c.contexts.length ∧
      c'.outputs.length = c.outputs.length ∧
      (∀ j, j ∉ ks → c'.contexts[j]? = c.contexts[j]? ∧ c'.outputs[j]? = c.outputs[j]?) ∧
      (∀ j ∈ ks, ∃ ctx out, d.childAt j = some ctx ∧ d.outputAt j = some out ∧
        c'.contexts[j]? = some (some { cloneChild d ctx with parentIndex := some j }) ∧
        c'.outputs[j]? = some (some out.clone)) := by
  intro ks
  induction ks with
  | nil =>
    intro c c' _ h
    simp only [List.foldlM_nil, pure] at h
    injection h with h
    subst h
    refine ⟨rfl, rfl, rfl, rfl, rfl, rfl, fun j _ => ⟨rfl, rfl⟩, fun j hj => absurd hj (by simp)⟩
  | cons k rest ih =>
    intro c c' hnd h
    rw [List.foldlM_cons] at h
    replace h : Option.bind (cloneAddStep d c k)
        (fun c1 => rest.foldlM (cloneAddStep d) c1) = some c' := h
    obtain ⟨c1, hstep, hrest⟩ := Option.bind_eq_some.mp h
    obtain ⟨ctx, out, hctx, hout, hadd⟩ := cloneAddStep_eq_some.mp hstep
    obtain ⟨-, -, hslotc, hsloto, hc1⟩ := addSystem_eq_some.mp hadd
    have htn : (Int.ofNat k).toNat = k := rfl
    rw [htn] at hslotc hsloto hc1
    have hkc : k < c.contexts.length := (List.getElem?_eq_some_iff.mp hslotc).1
    have hko : k < c.outputs.length := (List.getElem?_eq_some_iff.mp hsloto).1
    obtain ⟨hkrest, hndrest⟩ := List.nodup_cons.mp hnd
    subst hc1
    obtain ⟨hin, hout2, hdep, hinv, hlenc, hleno, hpres, hspec⟩ := ih _ c' hndrest hrest
    refine ⟨hin, hout2, hdep, hinv, ?_, ?_, ?_, ?_⟩
    · rw [hlenc]; simp
    · rw [hleno]; simp
    · intro j hj
      have hjk : j ≠ k := fun hh => hj (hh ▸ List.mem_cons_self k rest)
      have hjrest : j ∉ rest := fun hh => hj (List.mem_cons_of_mem k hh)
      obtain ⟨hp1, hp2⟩ := hpres j hjrest
      constructor
      · rw [hp1]; simp [List.getElem?_set_ne (fun hh => hjk hh.symm)]
      · rw [hp2]; simp [List.getElem?_set_ne (fun hh => hjk hh.symm)]
    · intro j hj
      rcases List.mem_cons.mp hj with hjk | hjrest
      · subst hjk
        refine ⟨ctx, out, hctx, hout, ?_, ?_⟩
        · obtain ⟨hp1, _⟩ := hpres j hkrest
          rw [hp1]
          simp [List.getElem?_set_self hkc]
        · obtain ⟨_, hp2⟩ := hpres j hkrest
          rw [hp2]
          simp [List.getElem?_set_self hko]
      · exact hspec j hjrest

/-- Invariants of the `DoClone` wiring loop over any connection list with
duplicate-free destinations: the id lists, outputs and child signatures are
preserved; endpoints not named as a destination keep their forward-graph
binding and their port; and every replayed connection ends with the forward
edge recorded and the destination port dependent on its source. -/
theorem connectFold_spec :
    ∀ (prs : List (PortIdentifier × PortIdentifier)) (c c' : DiagramContext),
      (prs.map Prod.fst).Nodup →
      prs.foldlM connectReplayStep c = some c' →
      c'.inputIds = c.inputIds ∧ c'.outputIds = c.outputIds ∧ c'.outputs = c.outputs ∧
      c'.contexts.length = c.contexts.length ∧
      (∀ i, (c'.childAt i).map childSig = (c.childAt i).map childSig) ∧
      (∀ key : PortIdentifier, key ∉ prs.map Prod.fst →
        mapLookup key c'.dependencyGraph = mapLookup key c.dependencyGraph ∧
        c'.portAt key.1 key.2 = c.portAt key.1 key.2) ∧
      (∀ pr ∈ prs, mapLookup pr.1 c'.dependencyGraph = some pr.2 ∧
        c'.portAt pr.1.1 pr.1.2 = some (.dependent pr.2.1 pr.2.2)) := by
  intro prs
  induction prs with
  | nil =>
    intro c c' _ h
    simp only [List.foldlM_nil, pure] at h
    injection h with h
    subst h
    exact ⟨rfl, rfl, rfl, rfl, fun _ => rfl, fun _ _ => ⟨rfl, rfl⟩,
      fun pr hpr => absurd hpr (by simp)⟩
  | cons pr rest ih =>
    intro c c' hnd h
    rw [List.foldlM_cons] at h
    replace h : Option.bind (connectReplayStep c pr)
        (fun c1 => rest.foldlM connectReplayStep c1) = some c' := h
    obtain ⟨c1, hstep, hrest⟩ := Option.bind_eq_some.mp h
    have hfields := @connect_fields c c1 pr.2 pr.1 hstep
    obtain ⟨hin, hout, houts, hlen, hsig, hdep, hinv, hport, hportpres⟩ := hfields
    rw [List.map_cons, List.nodup_cons] at hnd
    obtain ⟨hknotin, hndrest⟩ := hnd
    obtain ⟨ihin, ihout, ihouts, ihlen, ihsig, ihpres, ihspec⟩ := ih c1 c' hndrest hrest
    refine ⟨ihin.trans hin, ihout.trans hout, ihouts.trans houts, ihlen.trans hlen,
      fun i => (ihsig i).trans (hsig i), ?_, ?_⟩
    · intro key hkey
      have hkne : key ≠ pr.1 := fun hh => (hh ▸ hkey) (List.mem_cons_self _ _)
      have hkrest : key ∉ rest.map Prod.fst := fun hh => hkey (List.mem_cons_of_mem _ hh)
      obtain ⟨ih1, ih2⟩ := ihpres key hkrest
      constructor
      · rw [ih1, hdep, mapLookup_mapInsert_ne hkne]
      · rw [ih2]
        exact hportpres key.1 key.2 (by intro hh; exact hkne hh)
    · intro pr' hpr'
      rcases List.mem_cons.mp hpr' with hh | hh
      · subst hh
        obtain ⟨ih1, ih2⟩ := ihpres pr'.1 hknotin
        constructor
        · rw [ih1, hdep, mapLookup_mapInsert_self]
        · rw [ih2]
          exact hport
      · exact ihspec pr' hh

/-- The `DoClone` exported-input loop only appends the replayed identifiers
to `input_ids_`. -/
theorem exportFold_spec :
    ∀ (ids : List PortIdentifier) (c c' : DiagramContext),
      ids.foldlM exportReplayStep c = some c' →
      c' = { c with inputIds := c.inputIds ++ ids } := by
  intro ids
  induction ids with
  | nil =>
    intro c c' h
    simp only [List.foldlM_nil, pure] at h
    injection h with h
    subst h
    simp
  | cons pid rest ih =>
    intro c c' h
    rw [List.foldlM_cons] at h
    replace h : Option.bind (exportReplayStep c pid)
        (fun c1 => rest.foldlM exportReplayStep c1) = some c' := h
    obtain ⟨c1, hstep, hrest⟩ := Option.bind_eq_some.mp h
    obtain ⟨-, hc1⟩ := exportInput_eq_some.mp hstep
    subst hc1
    have := ih _ c' hrest
    rw [this]
    simp

end DrakeSpec

namespace DrakeSpec

/-! ## Claim theorems -/

/-- C1: on the fixture cache with tickets 0, 1, 2 (2 depending on 0 and 1,
1 depending on 0) and values 0, 1, 2 set, `invalidate(1)` makes `get`
absent for ticket 1 and for its forward-reachable dependent ticket 2 while
`get(0)` still returns its value; and for every repopulation value `v`,
doing `set(2, v)` and then `invalidate(1)` again leaves `get(2)` absent, so
invalidation continues through already-invalid entries. -/
theorem c1_invalidation_soundness :
    cacheTestSetup.isSome = true ∧
    fixtureInvalidated.get 0 = some 0 ∧
    fixtureInvalidated.get 1 = none ∧
    fixtureInvalidated.get 2 = none ∧
    ∀ v : Int, fixtureInvalidated.set 2 v = some (fixtureResetWith v, v) ∧
      ((fixtureResetWith v).invalidate 1).get 2 = none := by
  refine ⟨by decide, by decide, by decide, by decide, fun v => ⟨rfl, rfl⟩⟩

/-- C2: for every context tree with all children installed and every time
value `t`, after `set_time(t)` the root and every context below it report
`time() == t`. -/
theorem c2_time_propagation (tr : CtxTree) (t : Int) (h : tr.allInstalled = true) :
    (tr.setTime t).time = t ∧ CtxTree.allTime t (tr.setTime t) = true := by
  refine ⟨?_, setTime_allTime t tr⟩
  cases tr <;> rfl

/-- Witness for C2 at the three-child diagram of scenario S6. -/
theorem c2_time_propagation_witness :
    threeChildDiagram.allInstalled = true ∧
    ((threeChildDiagram.setTime 7).time = 7 ∧
     CtxTree.allTime 7 (threeChildDiagram.setTime 7) = true) :=
  ⟨rfl, c2_time_propagation threeChildDiagram 7 rfl⟩

/-- C3: `PropagateInvalidOutputs` is claimed to invalidate downstream
dependents through `inverse_dependency_graph_`, but its body in
`diagram_context.h` is only a TODO comment: the call changes nothing, on
every diagram context and every argument pair. -/
theorem c3_propagate_invalid_outputs_noop (d : DiagramContext)
    (systemIndex portIndex : Nat) :
    d.PropagateInvalidOutputs systemIndex portIndex = d := rfl

/-- C4 counterexample: `DoClone` does not replay `output_ids_`.  On the
concrete one-subsystem diagram exporting one output port, the clone reports
zero output ports while the original reports one, refuting the claim that
the clone's `get_num_output_ports` equals the original's. -/
theorem c4_counterexample :
    exportingDiagram = some c4orig ∧
    c4orig.DoClone = some c4origClone ∧
    c4orig.numOutputPorts = 1 ∧
    c4origClone.numOutputPorts = 0 ∧
    ¬ c4origClone.numOutputPorts = c4orig.numOutputPorts := by decide

/-- C4 (amended): for every fully constructed diagram context whose
connection map has duplicate-free destinations, a successful `DoClone`
clones every child context and output set in index order, replays every
connection from `dependency_graph` via `connect` (rebuilding the dependent
input ports on the clone) and replays every exported input via
`export_input`; the exported outputs are NOT replayed, so the clone's
`get_num_output_ports` is 0 rather than the original's count. -/
theorem c4_clone_replay_amended (d c' : DiagramContext) (h : d.DoClone = some c')
    (hkeys : (d.dependencyGraph.map Prod.fst).Nodup) :
    c'.outputIds = [] ∧
    c'.numOutputPorts = 0 ∧
    c'.inputIds = d.inputIds ∧
    c'.contexts.length = d.contexts.length ∧
    (∀ i, i < d.contexts.length → ∃ ctx out,
      d.childAt i = some ctx ∧ d.outputAt i = some out ∧
      c'.outputAt i = some out.clone ∧
      ∃ cc, c'.childAt i = some cc ∧ cc.time = ctx.time ∧
        cc.parentIndex = some i ∧ cc.numInputPorts = ctx.numInputPorts) ∧
    (∀ pr ∈ d.dependencyGraph,
      mapLookup pr.1 c'.dependencyGraph = some pr.2 ∧
      c'.portAt pr.1.1 pr.1.2 = some (.dependent pr.2.1 pr.2.2)) := by
  unfold DiagramContext.DoClone at h
  replace h : Option.bind
      ((List.range d.contexts.length).foldlM (cloneAddStep d)
        (DiagramContext.create d.contexts.length))
      (fun a1 => Option.bind (d.dependencyGraph.foldlM connectReplayStep a1)
        (fun a2 => d.inputIds.foldlM exportReplayStep a2)) = some c' := h
  obtain ⟨a1, h1, h2⟩ := Option.bind_eq_some.mp h
  obtain ⟨a2, h3, h4⟩ := Option.bind_eq_some.mp h2
  obtain ⟨ain, aout, adep, ainv, alenc, aleno, apres, aspec⟩ :=
    addFold_spec d (List.range d.contexts.length) _ a1 (List.nodup_range _) h1
  obtain ⟨cin, cout, couts, clen, csig, cpres, cspec⟩ :=
    connectFold_spec d.dependencyGraph a1 a2 hkeys h3
  have hc' : c' = { a2 with inputIds := a2.inputIds ++ d.inputIds } :=
    exportFold_spec d.inputIds a2 c' h4
  subst hc'
  have houtIds : a2.outputIds = [] := by
    rw [cout, aout]
    rfl
  have hchildAtEq : ∀ i, DiagramContext.childAt
      { a2 with inputIds := a2.inputIds ++ d.inputIds } i = a2.childAt i := fun _ => rfl
  have houtputAtEq : ∀ i, DiagramContext.outputAt
      { a2 with inputIds := a2.inputIds ++ d.inputIds } i = a2.outputAt i := fun _ => rfl
  have hportAtEq : ∀ i p, DiagramContext.portAt
      { a2 with inputIds := a2.inputIds ++ d.inputIds } i p = a2.portAt i p :=
    fun _ _ => rfl
  refine ⟨houtIds, ?_, ?_, ?_, ?_, ?_⟩
  · show a2.outputIds.length = 0
    rw [houtIds]
    rfl
  · show a2.inputIds ++ d.inputIds = d.inputIds
    rw [cin, ain]
    rfl
  · show a2.contexts.length = d.contexts.length
    rw [clen, alenc]
    simp [DiagramContext.create]
  · intro i hi
    obtain ⟨ctx, out, hctx, hout, hslotc1, hsloto1⟩ :=
      aspec i (List.mem_range.mpr hi)
    refine ⟨ctx, out, hctx, hout, ?_, ?_⟩
    · rw [houtputAtEq]
      show (a2.outputs[i]?).bind id = some out.clone
      rw [couts]
      exact outputAt_eq_some.mpr hsloto1
    · have ha1child : a1.childAt i =
          some { cloneChild d ctx with parentIndex := some i } :=
        childAt_eq_some.mpr hslotc1
      have hsig := csig i
      rw [ha1child] at hsig
      obtain ⟨cc, hcc, hccsig⟩ := Option.map_eq_some'.mp hsig
      refine ⟨cc, by rw [hchildAtEq]; exact hcc, ?_, ?_, ?_⟩
      · have : cc.time = ctx.time := by
          have := congrArg Prod.fst hccsig
          simpa [childSig, cloneChild] using this
        exact this
      · have := congrArg (fun x => x.2.1) hccsig
        simpa [childSig, cloneChild] using this
      · have := congrArg (fun x => x.2.2) hccsig
        simpa [childSig, cloneChild, LeafContext.numInputPorts] using this
  · intro pr hpr
    obtain ⟨hl, hp⟩ := cspec pr hpr
    exact ⟨hl, by rw [hportAtEq]; exact hp⟩

/-- Witness for the amended C4 at the wired two-subsystem diagram. -/
theorem c4_clone_replay_amended_witness :
    c4base.DoClone = some c4baseClone ∧
    (c4base.dependencyGraph.map Prod.fst).Nodup ∧
    (c4baseClone.outputIds = [] ∧
     c4baseClone.numOutputPorts = 0 ∧
     c4baseClone.inputIds = c4base.inputIds ∧
     c4baseClone.contexts.length = c4base.contexts.length ∧
     (∀ i, i < c4base.contexts.length → ∃ ctx out,
       c4base.childAt i = some ctx ∧ c4base.outputAt i = some out ∧
       c4baseClone.outputAt i = some out.clone ∧
       ∃ cc, c4baseClone.childAt i = some cc ∧ cc.time = ctx.time ∧
         cc.parentIndex = some i ∧ cc.numInputPorts = ctx.numInputPorts) ∧
     (∀ pr ∈ c4base.dependencyGraph,
       mapLookup pr.1 c4baseClone.dependencyGraph = some pr.2 ∧
       c4baseClone.portAt pr.1.1 pr.1.2 = some (.dependent pr.2.1 pr.2.2))) :=
  ⟨by decide, by decide, c4_clone_replay_amended c4base c4baseClone (by decide) (by decide)⟩

end DrakeSpec

namespace DrakeSpec

/-- C5: `clone()` produces a cache with the same tickets, the same
dependency topology and equal values; afterwards, any sequence of
operations addressed to the copy leaves the original cache exactly as it
was, and any sequence addressed to the original leaves the copy exactly
equal to the clone. -/
theorem c5_clone_independence (c : Cache) (ops : List CacheOp) :
    (Cache.clone c).numTickets = c.numTickets ∧
    (∀ t, (Cache.clone c).prereqs t = c.prereqs t) ∧
    (∀ t, (Cache.clone c).dependents t = c.dependents t) ∧
    (∀ t, (Cache.clone c).get t = c.get t) ∧
    ((ClonePair.ofClone c).opsOnCopy ops).original = c ∧
    ((ClonePair.ofClone c).opsOnOriginal ops).copy = Cache.clone c := by
  refine ⟨rfl, fun t => rfl, fun t => rfl, fun t => rfl, ?_, ?_⟩
  · exact opsOnCopy_original ops _
  · exact opsOnOriginal_copy ops _

/-- C6: a borrow obtained from a successful `get(t)` survives
`invalidate(t)`: afterwards `get(t)` is absent, yet the storage behind the
borrow still holds the same payload (invalidation never rewrites any
entry's storage). -/
theorem c6_borrow_survives_invalidation (c : Cache) (t : Nat) (p : Int)
    (h : c.get t = some p) :
    (c.invalidate t).get t = none ∧
    ((c.invalidate t).entry t).stored = some p ∧
    ∀ u, ((c.invalidate t).entry u).stored = (c.entry u).stored := by
  obtain ⟨_, _, hst⟩ := get_some_elim c t p h
  refine ⟨invalidate_get_self c t, ?_, fun u => invalidateWork_stored _ _ _ _ _⟩
  rw [show c.invalidate t = Cache.invalidateWork (c.totalEdges + 2) c [] [t] from rfl]
  rw [invalidateWork_stored]
  exact hst

/-- Witness for C6 at ticket 1 of the fixture cache. -/
theorem c6_borrow_survives_invalidation_witness :
    fixtureCache.get 1 = some 1 ∧
    ((fixtureCache.invalidate 1).get 1 = none ∧
     ((fixtureCache.invalidate 1).entry 1).stored = some 1 ∧
     ∀ u, ((fixtureCache.invalidate 1).entry u).stored = (fixtureCache.entry u).stored) :=
  ⟨by decide, c6_borrow_survives_invalidation fixtureCache 1 1 (by decide)⟩

/-- C7: on any cache, `make_ticket({})` issues the next dense ticket;
`set(t, 42)` returns a borrow of the stored 42 and `get(t)` then reads 42;
`swap(t, 43)` returns the prior payload 42 as an owned value, after which
`get(t)` reads 43, and no other ticket's observable state changes at any
point (in particular swap invalidates no dependents). -/
theorem c7_set_get_swap (c : Cache) :
    c.makeTicket [] = some (afterFreshTicket c, c.numTickets) ∧
    (afterFreshTicket c).set c.numTickets 42 = some (afterSet42 c, 42) ∧
    (afterSet42 c).get c.numTickets = some 42 ∧
    (afterSet42 c).swap c.numTickets 43 = some (afterSwap43 c, some 42) ∧
    (afterSwap43 c).get c.numTickets = some 43 ∧
    ∀ u, u ≠ c.numTickets → (afterSwap43 c).get u = c.get u := by
  refine ⟨by simp [Cache.makeTicket, afterFreshTicket], ?_, ?_, ?_, ?_, ?_⟩
  · simp [afterSet42, afterFreshTicket, Cache.set, Cache.makeTicket]
  · simp [afterSet42, afterFreshTicket, Cache.get, Cache.set, Cache.makeTicket]
  · simp [afterSwap43, afterSet42, afterFreshTicket, Cache.swap, Cache.get, Cache.set,
      Cache.makeTicket]
  · simp [afterSwap43, afterSet42, afterFreshTicket, Cache.swap, Cache.get, Cache.set,
      Cache.makeTicket]
  · intro u hu
    simp only [afterSwap43, afterSet42, afterFreshTicket, Cache.swap, Cache.get, Cache.set,
      Cache.makeTicket]
    by_cases hlt : u < c.numTickets
    · simp [hu, hlt, Nat.lt_succ_of_lt hlt]
    · have hnlt : ¬ u < c.numTickets + 1 := by
        intro hcon
        exact hu (Nat.eq_of_lt_succ_of_not_lt hcon hlt)
      simp [hu, hlt, hnlt]

/-- Witness for C7 at the empty cache. -/
theorem c7_set_get_swap_witness :
    Cache.empty.makeTicket [] =
      some (afterFreshTicket Cache.empty, Cache.empty.numTickets) ∧
    (afterFreshTicket Cache.empty).set Cache.empty.numTickets 42 =
      some (afterSet42 Cache.empty, 42) ∧
    (afterSet42 Cache.empty).get Cache.empty.numTickets = some 42 ∧
    (afterSet42 Cache.empty).swap Cache.empty.numTickets 43 =
      some (afterSwap43 Cache.empty, some 42) ∧
    (afterSwap43 Cache.empty).get Cache.empty.numTickets = some 43 ∧
    ∀ u, u ≠ Cache.empty.numTickets →
      (afterSwap43 Cache.empty).get u = Cache.empty.get u :=
  c7_set_get_swap Cache.empty

/-- C8: `AddSystem(index, context, output)` succeeds exactly when the index
is within `[0, num_subsystems)` and both slots at that index are still
empty (failure is an abort that changes nothing); on success it installs
the child and its output set at the index and records the back-pointer
`(this diagram, index)` in the child, leaving every other slot and every
other field untouched. -/
theorem c8_add_system_checks (d : DiagramContext) (index : Int) (ctx : LeafContext)
    (out : SystemOutput) :
    ((d.AddSystem index ctx out).isSome ↔
      0 ≤ index ∧ index < d.numSubsystems ∧
      d.contexts[index.toNat]? = some none ∧ d.outputs[index.toNat]? = some none) ∧
    (∀ d', d.AddSystem index ctx out = some d' →
      d'.childAt index.toNat = some { ctx with parentIndex := some index.toNat } ∧
      d'.outputAt index.toNat = some out ∧
      (∀ j, j ≠ index.toNat → d'.contexts[j]? = d.contexts[j]? ∧ d'.outputs[j]? = d.outputs[j]?) ∧
      d'.inputIds = d.inputIds ∧ d'.outputIds = d.outputIds ∧
      d'.dependencyGraph = d.dependencyGraph ∧
      d'.inverseDependencyGraph = d.inverseDependencyGraph) := by
  constructor
  · unfold DiagramContext.AddSystem
    split
    · simp_all
    · simp_all
  · intro d' h
    unfold DiagramContext.AddSystem at h
    split at h
    case isTrue hc =>
      obtain ⟨h0, hlt, hctx, hout⟩ := hc
      have hltn : index.toNat < d.contexts.length := by
        simp only [DiagramContext.numSubsystems] at hlt
        omega
      have hlto : index.toNat < d.outputs.length := by
        by_contra hcon
        rw [List.getElem?_eq_none (by omega)] at hout
        exact Option.noConfusion hout
      injection h with h
      subst h
      refine ⟨?_, ?_, ?_, rfl, rfl, rfl, rfl⟩
      · simp [DiagramContext.childAt, List.getElem?_set_self hltn]
      · simp [DiagramContext.outputAt, List.getElem?_set_self hlto]
      · intro j hj
        constructor
        · simp [List.getElem?_set_ne (fun hh => hj hh.symm)]
        · simp [List.getElem?_set_ne (fun hh => hj hh.symm)]
    case isFalse => exact Option.noConfusion h

/-- Witness for C8: one successful `AddSystem` on a fresh two-slot diagram. -/
theorem c8_add_system_checks_witness :
    (DiagramContext.create 2).AddSystem 0 leafNoInputs twoPortOutput = some addedOnce ∧
    (addedOnce.childAt (0 : Int).toNat =
        some { leafNoInputs with parentIndex := some (0 : Int).toNat } ∧
     addedOnce.outputAt (0 : Int).toNat = some twoPortOutput ∧
     (∀ j, j ≠ (0 : Int).toNat →
        addedOnce.contexts[j]? = (DiagramContext.create 2).contexts[j]? ∧
        addedOnce.outputs[j]? = (DiagramContext.create 2).outputs[j]?) ∧
     addedOnce.inputIds = (DiagramContext.create 2).inputIds ∧
     addedOnce.outputIds = (DiagramContext.create 2).outputIds ∧
     addedOnce.dependencyGraph = (DiagramContext.create 2).dependencyGraph ∧
     addedOnce.inverseDependencyGraph = (DiagramContext.create 2).inverseDependencyGraph) :=
  ⟨by decide,
   (c8_add_system_checks (DiagramContext.create 2) 0 leafNoInputs twoPortOutput).2
     addedOnce (by decide)⟩

end DrakeSpec

namespace DrakeSpec

/-- C9: `ExportInput` and `ExportOutput` check only that a child is
installed at the identifier's subsystem index; the port index is never
validated against the child's declared port counts, so exporting a
nonexistent port of an installed child succeeds and appends the identifier
to the exported list — in contrast to `Connect`, which fails whenever
either endpoint's port index is out of its declared range. -/
theorem c9_export_skips_port_validation (d : DiagramContext) (i p : Nat)
    (ctx : LeafContext) (h : d.childAt i = some ctx) :
    d.ExportInput (i, p) = some { d with inputIds := d.inputIds ++ [(i, p)] } ∧
    d.ExportOutput (i, p) = some { d with outputIds := d.outputIds ++ [(i, p)] } ∧
    (∀ src out, d.outputAt src.1 = some out → out.ports.length ≤ src.2 →
      d.Connect src (i, p) = none) ∧
    (∀ src, ctx.numInputPorts ≤ p → d.Connect src (i, p) = none) := by
  refine ⟨?_, ?_, ?_, ?_⟩
  · simp [DiagramContext.ExportInput, h]
  · simp [DiagramContext.ExportOutput, h]
  · intro src out hsrc hle
    unfold DiagramContext.Connect
    rw [hsrc]
    simp [Nat.not_lt.mpr hle]
  · intro src hle
    unfold DiagramContext.Connect
    cases hsrc : d.outputAt src.1 with
    | none => rfl
    | some srcPorts =>
      by_cases hs : src.2 < srcPorts.ports.length
      · simp [hs, h, Nat.not_lt.mpr hle]
      · simp [hs]

/-- Witness for C9: exporting the nonexistent port 5 of installed child 0
succeeds on the two-child diagram, while the out-of-range `Connect` cases
fail. -/
theorem c9_export_skips_port_validation_witness :
    baseDiagram.childAt 0 = some { leafNoInputs with parentIndex := some 0 } ∧
    (baseDiagram.ExportInput (0, 5) =
        some { baseDiagram with inputIds := baseDiagram.inputIds ++ [(0, 5)] } ∧
     baseDiagram.ExportOutput (0, 5) =
        some { baseDiagram with outputIds := baseDiagram.outputIds ++ [(0, 5)] } ∧
     (∀ src out, baseDiagram.outputAt src.1 = some out → out.ports.length ≤ src.2 →
        baseDiagram.Connect src (0, 5) = none) ∧
     (∀ src, ({ leafNoInputs with parentIndex := some 0 } : LeafContext).numInputPorts ≤ 5 →
        baseDiagram.Connect src (0, 5) = none)) :=
  ⟨by decide,
   c9_export_skips_port_validation baseDiagram 0 5
     { leafNoInputs with parentIndex := some 0 } (by decide)⟩

/-- C10: after two successful `Connect` calls with the same destination but
different sources `s1` then `s2`, the forward map binds the destination
only to the most recent source `s2`, while the inverse map still lists the
destination among the consumers of both `s1` and `s2` — so the two graphs
are no longer exact transposes of each other. -/
theorem c10_reconnect_inverse_retained (d d1 d2 : DiagramContext)
    (s1 s2 dest : PortIdentifier)
    (h1 : d.Connect s1 dest = some d1) (h2 : d1.Connect s2 dest = some d2)
    (hne : s1 ≠ s2) :
    mapLookup dest d2.dependencyGraph = some s2 ∧
    mapLookup dest d2.dependencyGraph ≠ some s1 ∧
    dest ∈ consumersOf d2 s1 ∧
    dest ∈ consumersOf d2 s2 := by
  rw [connect_eq_some] at h1 h2
  obtain ⟨_, _, _, _, _, _, hd1⟩ := h1
  obtain ⟨_, _, _, _, _, _, hd2⟩ := h2
  subst hd2
  subst hd1
  refine ⟨?_, ?_, ?_, ?_⟩
  · exact mapLookup_mapInsert_self dest s2 _
  · rw [mapLookup_mapInsert_self]
    intro hcon
    exact hne (Option.some.inj hcon).symm
  · show dest ∈ (mapLookup s1 (invPush s2 dest (invPush s1 dest d.inverseDependencyGraph))).getD []
    rw [invPush, mapLookup_mapInsert_ne hne]
    rw [invPush, mapLookup_mapInsert_self]
    simp
  · show dest ∈ (mapLookup s2 (invPush s2 dest _)).getD []
    rw [invPush, mapLookup_mapInsert_self]
    simp

/-- Witness for C10: wire output (0,0) to input (1,0), then rewire the same
input to output (0,1). -/
theorem c10_reconnect_inverse_retained_witness :
    baseDiagram.Connect (0, 0) (1, 0) = some firstWired ∧
    firstWired.Connect (0, 1) (1, 0) = some rewired ∧
    (mapLookup (1, 0) rewired.dependencyGraph = some (0, 1) ∧
     mapLookup (1, 0) rewired.dependencyGraph ≠ some (0, 0) ∧
     (1, 0) ∈ consumersOf rewired (0, 0) ∧
     (1, 0) ∈ consumersOf rewired (0, 1)) :=
  ⟨by decide, by decide,
   c10_reconnect_inverse_retained baseDiagram firstWired rewired (0, 0) (0, 1) (1, 0)
     (by decide) (by decide) (by decide)⟩

end DrakeSpec
